import Mathlib

/-!
# Coffee roaster controller: bounded-comparison utilities and PID constants

A shallow embedding of the two header pairs of the roaster controller
(`software/roaster_controller` and `firmware/roaster_controller`) together
with the properties of `algorithms::min`, `algorithms::max` and
`algorithms::clamp` and of the PID constants.

The C++ templates are generic in `T` and use `operator<` as their only
ordering primitive, so the embedding is generic in a type `T` carrying a
decidable relation `<`.  The functions return a reference to one of their
arguments; the embedding returns the value referred to.
-/

/-! ## `software/roaster_controller/algorithms.h` -/

namespace software.algorithms

/-- Source `max`: `return (a < b) ? b : a;`. -/
def max {T : Type*} [LT T] [DecidableRel (LT.lt : T → T → Prop)] (a b : T) : T :=
  if a < b then b else a

/-- Source `min`: `return (b < a) ? b : a;`. -/
def min {T : Type*} [LT T] [DecidableRel (LT.lt : T → T → Prop)] (a b : T) : T :=
  if b < a then b else a

/-- Source `clamp`: `return max(low, min(val, high));`. -/
def clamp {T : Type*} [LT T] [DecidableRel (LT.lt : T → T → Prop)] (val low high : T) : T :=
  max low (min val high)

end software.algorithms

/-! ## `firmware/roaster_controller/algorithms.h` -/

namespace firmware.algorithms

/-- Source `max`: `return (a < b) ? b : a;`. -/
def max {T : Type*} [LT T] [DecidableRel (LT.lt : T → T → Prop)] (a b : T) : T :=
  if a < b then b else a

/-- Source `min`: `return (b < a) ? b : a;`. -/
def min {T : Type*} [LT T] [DecidableRel (LT.lt : T → T → Prop)] (a b : T) : T :=
  if b < a then b else a

/-- Source `clamp`: `return max(low, min(val, high));`. -/
def clamp {T : Type*} [LT T] [DecidableRel (LT.lt : T → T → Prop)] (val low high : T) : T :=
  max low (min val high)

end firmware.algorithms

/-! ## `software/roaster_controller/roaster_controller.h`

The `constexpr float` and `constexpr double` constants are embedded as exact
rationals, the `constexpr int` constants as integers. -/

namespace software

/-- Source: `constexpr float MAX31865_RREF = 430;`. -/
def MAX31865_RREF : ℚ := 430

/-- Source: `constexpr float MAX31865_RNOMINAL = 100.0;`. -/
def MAX31865_RNOMINAL : ℚ := 100

/-- Source: `constexpr int dcMotor = 16;`. -/
def dcMotor : Int := 16

/-- Source: `constexpr int potPin = 17;`. -/
def potPin : Int := 17

/-- Source: `constexpr int rotaryAPin = 4;`. -/
def rotaryAPin : Int := 4

/-- Source: `constexpr int rotaryBPin = 0;`. -/
def rotaryBPin : Int := 0

/-- Source: `constexpr int ssrPin = 5;`. -/
def ssrPin : Int := 5

/-- Source: `constexpr double KP = 35;`. -/
def KP : ℚ := 35

/-- Source: `constexpr double KI = 1;`. -/
def KI : ℚ := 1

/-- Source: `constexpr double KD = 0;`. -/
def KD : ℚ := 0

/-- Modelled from the spec: the body of `getEncoderPosition`, which the header
only declares (`int getEncoderPosition();`, documented as "Clamps the position
to [0, 450] incluseivly").  The specification has the position clamped "via
ClampMath" to `[0, 450]`; the raw position read from the encoder is the
argument `raw`. -/
def getEncoderPosition (raw : Int) : Int :=
  algorithms.clamp raw 0 450

end software

/-! ## `firmware/roaster_controller/coffee_roaster.h` -/

namespace firmware

/-- Source: `constexpr float MAX31865_RREF = 430;`. -/
def MAX31865_RREF : ℚ := 430

/-- Source: `constexpr float MAX31865_RNOMINAL = 100.0;`. -/
def MAX31865_RNOMINAL : ℚ := 100

/-- Source: `constexpr int dcMotor = 16;`. -/
def dcMotor : Int := 16

/-- Source: `constexpr int potPin = 17;`. -/
def potPin : Int := 17

/-- Source: `constexpr int rotaryAPin = 4;`. -/
def rotaryAPin : Int := 4

/-- Source: `constexpr int rotaryBPin = 0;`. -/
def rotaryBPin : Int := 0

/-- Source: `constexpr int ssrPin = 5;`. -/
def ssrPin : Int := 5

end firmware

/-! ## Calls to `clamp` seen as fallible computations -/

/-- The configuration error of the specification's error taxonomy ("low > high
bound passed to clamp"). -/
inductive ConfigurationError where
  | invertedBounds
  deriving DecidableEq

namespace software.algorithms

/-- The outcome of a call to source `clamp`, with failure made explicit.  The
body of `clamp` is the single statement `return max(low, min(val, high));`:
it holds no assertion, no `throw` and no comparison of `low` with `high`, so
every call returns normally with the computed value. -/
def clampOutcome {T : Type*} [LT T] [DecidableRel (LT.lt : T → T → Prop)]
    (val low high : T) : Except ConfigurationError T :=
  Except.ok (clamp val low high)

end software.algorithms

/-! ## The PID controller of the specification

The source holds the gains `KP`, `KI`, `KD` and `clamp`, but no PID code.
The controller below follows section 4.4 of the specification, over exact
rational arithmetic. -/

/-- Modelled from the spec: `PIDState`, which "owns accumulated integral
term, previous error, and previous timestamp".  `compute` receives `dt` as an
argument, so the timestamp takes no part in the computation and is left out. -/
structure PIDState where
  integral : ℚ
  previousError : ℚ
  deriving DecidableEq

/-- Modelled from the spec: the configuration of the PID controller, its three
gains and the actuator output range `[outputMin, outputMax]`. -/
structure PIDConfig where
  kp : ℚ
  ki : ℚ
  kd : ℚ
  outputMin : ℚ
  outputMax : ℚ
  deriving DecidableEq

namespace PIDController

/-- Modelled from the spec: `reset()`, which "zeroes integral and
previousError". -/
def reset : PIDState :=
  { integral := 0, previousError := 0 }

/-- Modelled from the spec: the integral update "integral += error × dt, with
integral clamping (anti-windup): integral term is clamped to the actuator's
achievable output range before being added". -/
def integrate (outputMin outputMax integral error dt : ℚ) : ℚ :=
  software.algorithms.clamp (integral + error * dt) outputMin outputMax

/-- Modelled from the spec: "derivative = (error − previousError) / dt,
guarded against divide-by-zero when dt ≈ 0 (treat derivative as 0 for that
tick)". -/
def derivative (error previousError dt : ℚ) : ℚ :=
  if dt = 0 then 0 else (error - previousError) / dt

/-- Modelled from the spec: the sum `Kp·error + Ki·integral + Kd·derivative`
of one tick before the output clamp, with `error = setpoint − measured` and
the integral already updated. -/
def unclamped (cfg : PIDConfig) (setpoint measured dt : ℚ) (state : PIDState) : ℚ :=
  let error := setpoint - measured
  cfg.kp * error
    + cfg.ki * integrate cfg.outputMin cfg.outputMax state.integral error dt
    + cfg.kd * derivative error state.previousError dt

/-- Modelled from the spec: `compute(setpoint, measured, dt, state&) ->
controlOutput`, returning the output `clamp(Kp·error + Ki·integral +
Kd·derivative, outputMin, outputMax)` together with the updated state. -/
def compute (cfg : PIDConfig) (setpoint measured dt : ℚ) (state : PIDState) :
    ℚ × PIDState :=
  let error := setpoint - measured
  (software.algorithms.clamp (unclamped cfg setpoint measured dt state)
      cfg.outputMin cfg.outputMax,
    { integral := integrate cfg.outputMin cfg.outputMax state.integral error dt,
      previousError := error })

/-- The integral after a run of ticks, each given by its error and its `dt`,
starting from `integral`. -/
def integralAfter (outputMin outputMax : ℚ) (ticks : List (ℚ × ℚ)) (integral : ℚ) : ℚ :=
  ticks.foldl (fun acc tick => integrate outputMin outputMax acc tick.1 tick.2) integral

/-- The controller configured with the gains of the source (`KP`, `KI`, `KD`)
and a given output range. -/
def sourceConfig (outputMin outputMax : ℚ) : PIDConfig :=
  { kp := software.KP, ki := software.KI, kd := software.KD,
    outputMin := outputMin, outputMax := outputMax }

/-- The controller of the zero-error scenario: `Ki = 0` and `Kd = 0`, with a
given `Kp` and output range. -/
def proportionalConfig (kp outputMin outputMax : ℚ) : PIDConfig :=
  { kp := kp, ki := 0, kd := 0, outputMin := outputMin, outputMax := outputMax }

end PIDController

/-! ## The control loop of the specification

The source holds no control loop.  The state machine below follows sections
3, 4.2, 4.3, 4.5 and 4.6 of the specification. -/

/-- Modelled from the spec: `TemperatureReading`, "a floating-point value in
°F (or a tagged invalid state)"; `none` is the explicit invalid reading. -/
abbrev TemperatureReading := Option ℚ

/-- Modelled from the spec: the validity of a reading.  A reading is valid
when it is a value "within a physically plausible range [32, 600]"; "readings
outside range are rejected by the ControlLoop, not silently clamped". -/
def readingValid : TemperatureReading → Bool
  | none => false
  | some t => decide (32 ≤ t ∧ t ≤ 600)

/-- Modelled from the spec: `SetpointManager.currentSetpoint`, the "identity/
linear mapping from encoder position to target temperature (1:1 °F by
default)". -/
def currentSetpoint (position : Int) : ℚ :=
  (position : ℚ)

/-- Modelled from the spec: the states of the control loop, `Idle → Running →
Faulted → Idle`. -/
inductive LoopState where
  | Idle
  | Running
  | Faulted
  deriving DecidableEq

/-- Modelled from the spec: what the control loop reacts to.  A tick carries
the temperature reading, the raw encoder position and the time step; `start`,
`stop` and `reset` are the external start, stop and explicit reset signals
(what raises the reset, "encoder returned to 0, or external command", lies
outside the state machine). -/
inductive LoopEvent where
  | start
  | stop
  | reset
  | tick (reading : TemperatureReading) (rawPosition : Int) (dt : ℚ)
  deriving DecidableEq

/-- Modelled from the spec: the configuration of the control loop, the PID
configuration, the fault threshold `N` of consecutive invalid reads and the
safety ceiling `maxSafeDuty` of the heater. -/
structure LoopConfig where
  pid : PIDConfig
  faultThreshold : Nat
  maxSafeDuty : ℚ

/-- Modelled from the spec: the state owned by the control loop, its mode, the
single `PIDState`, the number of consecutive invalid reads and the heater
command of the last tick.  The motor command takes no part in the fault logic
and is left out. -/
structure ControlLoop where
  state : LoopState
  pid : PIDState
  invalidReads : Nat
  heater : ℚ
  deriving DecidableEq

namespace ControlLoop

/-- Modelled from the spec: `ActuatorDriver.applyHeater`, the PID output
"clamped to [0, maxSafeDuty]". -/
def applyHeater (cfg : LoopConfig) (controlOutput : ℚ) : ℚ :=
  software.algorithms.clamp controlOutput 0 cfg.maxSafeDuty

/-- Modelled from the spec: a tick in `Running`.  A valid reading runs the
PID on the setpoint of the clamped encoder position and drives the heater; an
invalid reading de-energizes the heater, leaves the PID state untouched, and
moves to `Faulted` after `N` consecutive invalid reads. -/
def runningTick (cfg : LoopConfig) (loop : ControlLoop)
    (reading : TemperatureReading) (rawPosition : Int) (dt : ℚ) : ControlLoop :=
  match reading with
  | some measured =>
    if readingValid (some measured) then
      let setpoint := currentSetpoint (software.getEncoderPosition rawPosition)
      let result := PIDController.compute cfg.pid setpoint measured dt loop.pid
      { state := LoopState.Running, pid := result.2, invalidReads := 0,
        heater := applyHeater cfg result.1 }
    else
      { state := if cfg.faultThreshold ≤ loop.invalidReads + 1 then LoopState.Faulted
                 else LoopState.Running,
        pid := loop.pid, invalidReads := loop.invalidReads + 1, heater := 0 }
  | none =>
    { state := if cfg.faultThreshold ≤ loop.invalidReads + 1 then LoopState.Faulted
               else LoopState.Running,
      pid := loop.pid, invalidReads := loop.invalidReads + 1, heater := 0 }

/-- Modelled from the spec: one event of the control loop (section 4.6).
`Idle` has the actuators de-energized and waits for `start`, which resets the
PID; `stop` takes `Running` to `Idle`; `Faulted` has the heater forced off and
returns to `Idle` on an explicit `reset` only. -/
def step (cfg : LoopConfig) (loop : ControlLoop) : LoopEvent → ControlLoop
  | LoopEvent.start =>
    match loop.state with
    | LoopState.Idle =>
      { state := LoopState.Running, pid := PIDController.reset, invalidReads := 0,
        heater := 0 }
    | _ => loop
  | LoopEvent.stop =>
    match loop.state with
    | LoopState.Running => { loop with state := LoopState.Idle, heater := 0 }
    | _ => loop
  | LoopEvent.reset =>
    match loop.state with
    | LoopState.Faulted =>
      { state := LoopState.Idle, pid := PIDController.reset, invalidReads := 0,
        heater := 0 }
    | _ => loop
  | LoopEvent.tick reading rawPosition dt =>
    match loop.state with
    | LoopState.Idle => { loop with heater := 0 }
    | LoopState.Running => runningTick cfg loop reading rawPosition dt
    | LoopState.Faulted => { loop with heater := 0 }

/-- The control loop after a run of events. -/
def run (cfg : LoopConfig) (events : List LoopEvent) (loop : ControlLoop) : ControlLoop :=
  events.foldl (step cfg) loop

/-- A tick whose temperature reading is invalid. -/
def isInvalidTick : LoopEvent → Bool
  | LoopEvent.tick reading _ _ => !readingValid reading
  | _ => false

/-- The configuration of the fault scenario: the gains of the source, the
output range `[0, 255]`, fault threshold `N = 3`. -/
def scenarioConfig : LoopConfig :=
  { pid := PIDController.sourceConfig 0 255, faultThreshold := 3, maxSafeDuty := 90 }

/-- A `Running` loop with no invalid read so far and the heater driven. -/
def scenarioLoop : ControlLoop :=
  { state := LoopState.Running, pid := PIDController.reset, invalidReads := 0, heater := 42 }

/-- Five consecutive ticks with an invalid reading: the invalid sentinel, and
values outside `[32, 600]`. -/
def scenarioTicks : List LoopEvent :=
  [LoopEvent.tick none 400 1, LoopEvent.tick (some 1000) 400 1, LoopEvent.tick none 400 1,
    LoopEvent.tick none 400 1, LoopEvent.tick (some 0) 400 1]

end ControlLoop

/-! ## The three-way reference definition of the specification -/

/-- The contract of `clamp` in the words of the specification: `low` if
`value < low`, `high` if `high < value`, else `value`. -/
def clampSpec {T : Type*} [LT T] [DecidableRel (LT.lt : T → T → Prop)]
    (value low high : T) : T :=
  if value < low then low else if high < value then high else value

/-! ## Bridge to the lattice operations of a linear order -/

section Bridge

variable {T : Type*} [LinearOrder T]

theorem software_max_eq_sup (a b : T) : software.algorithms.max a b = a ⊔ b := by
  unfold software.algorithms.max
  split_ifs with h
  · exact (sup_eq_right.2 h.le).symm
  · exact (sup_eq_left.2 (not_lt.1 h)).symm

theorem software_min_eq_inf (a b : T) : software.algorithms.min a b = a ⊓ b := by
  unfold software.algorithms.min
  split_ifs with h
  · exact (inf_eq_right.2 h.le).symm
  · exact (inf_eq_left.2 (not_lt.1 h)).symm

theorem software_clamp_eq (val low high : T) :
    software.algorithms.clamp val low high = low ⊔ (val ⊓ high) := by
  unfold software.algorithms.clamp
  rw [software_max_eq_sup, software_min_eq_inf]

theorem firmware_max_eq_sup (a b : T) : firmware.algorithms.max a b = a ⊔ b := by
  unfold firmware.algorithms.max
  split_ifs with h
  · exact (sup_eq_right.2 h.le).symm
  · exact (sup_eq_left.2 (not_lt.1 h)).symm

theorem firmware_min_eq_inf (a b : T) : firmware.algorithms.min a b = a ⊓ b := by
  unfold firmware.algorithms.min
  split_ifs with h
  · exact (inf_eq_right.2 h.le).symm
  · exact (inf_eq_left.2 (not_lt.1 h)).symm

theorem firmware_clamp_eq (val low high : T) :
    firmware.algorithms.clamp val low high = low ⊔ (val ⊓ high) := by
  unfold firmware.algorithms.clamp
  rw [firmware_max_eq_sup, firmware_min_eq_inf]

/-- The three-way reference agrees with `low ⊔ (value ⊓ high)` once
`low ≤ high`. -/
theorem clampSpec_eq (value low high : T) (h : low ≤ high) :
    clampSpec value low high = low ⊔ (value ⊓ high) := by
  unfold clampSpec
  split_ifs with h1 h2
  · rw [inf_eq_left.2 (h1.le.trans h), sup_eq_left.2 h1.le]
  · rw [inf_eq_right.2 h2.le, sup_eq_right.2 h]
  · rw [inf_eq_left.2 (not_lt.1 h2), sup_eq_right.2 (not_lt.1 h1)]

theorem sup_inf_mem_range (val low high : T) (h : low ≤ high) :
    low ≤ low ⊔ (val ⊓ high) ∧ low ⊔ (val ⊓ high) ≤ high :=
  ⟨le_sup_left, sup_le h inf_le_right⟩

theorem sup_inf_of_mem (val low high : T) (h1 : low ≤ val) (h2 : val ≤ high) :
    low ⊔ (val ⊓ high) = val := by
  rw [inf_eq_left.2 h2, sup_eq_right.2 h1]

theorem sup_inf_idem (val low high : T) :
    low ⊔ ((low ⊔ (val ⊓ high)) ⊓ high) = low ⊔ (val ⊓ high) := by
  rw [inf_sup_right, inf_assoc, inf_idem, ← sup_assoc, sup_inf_self]

end Bridge

/-! ## Lemmas on the PID controller -/

namespace PIDController

theorem integrate_mem_range (outputMin outputMax integral error dt : ℚ)
    (h : outputMin ≤ outputMax) :
    outputMin ≤ integrate outputMin outputMax integral error dt ∧
      integrate outputMin outputMax integral error dt ≤ outputMax := by
  unfold integrate
  rw [software_clamp_eq]
  exact sup_inf_mem_range _ _ _ h

/-- A run of ticks keeps an integral that starts in the output range inside
it. -/
theorem integralAfter_mem_range (outputMin outputMax : ℚ) (h : outputMin ≤ outputMax)
    (ticks : List (ℚ × ℚ)) :
    ∀ integral : ℚ, outputMin ≤ integral → integral ≤ outputMax →
      outputMin ≤ integralAfter outputMin outputMax ticks integral ∧
        integralAfter outputMin outputMax ticks integral ≤ outputMax := by
  induction ticks with
  | nil =>
    intro integral h1 h2
    exact ⟨h1, h2⟩
  | cons tick ticks ih =>
    intro integral _ _
    have step := integrate_mem_range outputMin outputMax integral tick.1 tick.2 h
    exact ih _ step.1 step.2

theorem compute_integral (cfg : PIDConfig) (setpoint measured dt : ℚ) (state : PIDState) :
    (compute cfg setpoint measured dt state).2.integral =
      integrate cfg.outputMin cfg.outputMax state.integral (setpoint - measured) dt := rfl

theorem compute_output (cfg : PIDConfig) (setpoint measured dt : ℚ) (state : PIDState) :
    (compute cfg setpoint measured dt state).1 =
      software.algorithms.clamp (unclamped cfg setpoint measured dt state)
        cfg.outputMin cfg.outputMax := rfl

/-- The first tick of the scenario: the integral is `clamp(100, ..)` and the
sum before the output clamp is `3500` plus that integral. -/
theorem first_tick_unclamped (outputMin outputMax : ℚ) :
    unclamped (sourceConfig outputMin outputMax) 400 300 1 reset =
      3500 + (outputMin ⊔ (100 ⊓ outputMax)) := by
  simp only [unclamped, sourceConfig, reset, integrate, derivative, software.KP,
    software.KI, software.KD, software_clamp_eq]
  norm_num

end PIDController

/-! ## Claims -/

section Claims

variable {T : Type*} [LinearOrder T]

/-- C1: for `low ≤ high`, `algorithms::clamp` (software and firmware
variants alike) equals the three-way reference definition: `low` if
`val < low`, `high` if `high < val`, `val` otherwise. -/
theorem clamp_eq_clampSpec (val low high : T) (h : low ≤ high) :
    software.algorithms.clamp val low high = clampSpec val low high ∧
    firmware.algorithms.clamp val low high = clampSpec val low high := by
  rw [software_clamp_eq, firmware_clamp_eq, clampSpec_eq val low high h]
  exact ⟨rfl, rfl⟩

theorem clamp_eq_clampSpec_witness :
    (0 : Int) ≤ 450 ∧
    (software.algorithms.clamp (500 : Int) 0 450 = clampSpec (500 : Int) 0 450 ∧
     firmware.algorithms.clamp (500 : Int) 0 450 = clampSpec (500 : Int) 0 450) :=
  ⟨by decide, clamp_eq_clampSpec (500 : Int) 0 450 (by decide)⟩

/-- C2: for `low ≤ high` the result `r` of `algorithms::clamp` lies in
`[low, high]`, equals `val` whenever `val` is already in `[low, high]`, and
in particular the two bounds are fixed points. -/
theorem clamp_mem_range (val low high : T) (h : low ≤ high) :
    (low ≤ software.algorithms.clamp val low high ∧
      software.algorithms.clamp val low high ≤ high) ∧
    (low ≤ val → val ≤ high → software.algorithms.clamp val low high = val) ∧
    software.algorithms.clamp low low high = low ∧
    software.algorithms.clamp high low high = high := by
  simp only [software_clamp_eq]
  exact ⟨sup_inf_mem_range val low high h, sup_inf_of_mem val low high,
    sup_inf_of_mem low low high le_rfl h, sup_inf_of_mem high low high h le_rfl⟩

theorem clamp_mem_range_witness :
    (0 : Int) ≤ 450 ∧
    ((0 ≤ software.algorithms.clamp (200 : Int) 0 450 ∧
      software.algorithms.clamp (200 : Int) 0 450 ≤ 450) ∧
    ((0 : Int) ≤ 200 → (200 : Int) ≤ 450 → software.algorithms.clamp (200 : Int) 0 450 = 200) ∧
    software.algorithms.clamp (0 : Int) 0 450 = 0 ∧
    software.algorithms.clamp (450 : Int) 0 450 = 450) :=
  ⟨by decide, clamp_mem_range (200 : Int) 0 450 (by decide)⟩

/-- C4: `algorithms::clamp` is idempotent for all `val`, `low`, `high`
(no ordering of the bounds assumed): clamping twice equals clamping once. -/
theorem clamp_idempotent (val low high : T) :
    software.algorithms.clamp (software.algorithms.clamp val low high) low high =
      software.algorithms.clamp val low high := by
  simp only [software_clamp_eq]
  exact sup_inf_idem val low high

/-- C5: `algorithms::min` is the lesser and `algorithms::max` the greater of
their two arguments, each being a single `<` test that selects one of the
arguments (software and firmware variants alike). -/
theorem min_max_spec (a b : T) :
    (software.algorithms.min a b = (if b < a then b else a) ∧
      software.algorithms.max a b = (if a < b then b else a) ∧
      firmware.algorithms.min a b = (if b < a then b else a) ∧
      firmware.algorithms.max a b = (if a < b then b else a)) ∧
    (software.algorithms.min a b ≤ a ∧ software.algorithms.min a b ≤ b ∧
      a ≤ software.algorithms.max a b ∧ b ≤ software.algorithms.max a b) ∧
    ((software.algorithms.min a b = a ∨ software.algorithms.min a b = b) ∧
      (software.algorithms.max a b = a ∨ software.algorithms.max a b = b)) ∧
    (firmware.algorithms.min a b ≤ a ∧ firmware.algorithms.min a b ≤ b ∧
      a ≤ firmware.algorithms.max a b ∧ b ≤ firmware.algorithms.max a b) ∧
    ((firmware.algorithms.min a b = a ∨ firmware.algorithms.min a b = b) ∧
      (firmware.algorithms.max a b = a ∨ firmware.algorithms.max a b = b)) := by
  refine ⟨⟨rfl, rfl, rfl, rfl⟩, ?_, ?_, ?_, ?_⟩
  · rw [software_min_eq_inf, software_max_eq_sup]
    exact ⟨inf_le_left, inf_le_right, le_sup_left, le_sup_right⟩
  · unfold software.algorithms.min software.algorithms.max
    constructor <;> split_ifs <;> simp
  · rw [firmware_min_eq_inf, firmware_max_eq_sup]
    exact ⟨inf_le_left, inf_le_right, le_sup_left, le_sup_right⟩
  · unfold firmware.algorithms.min firmware.algorithms.max
    constructor <;> split_ifs <;> simp

/-- C3: the encoder position is always in `[0, 450]`: for every raw integer
reading, negative, in range or above 450, clamping it with
`algorithms::clamp(raw, 0, 450)` gives a position between 0 and 450. -/
theorem getEncoderPosition_mem_range (raw : Int) :
    0 ≤ software.getEncoderPosition raw ∧ software.getEncoderPosition raw ≤ 450 := by
  unfold software.getEncoderPosition
  rw [software_clamp_eq]
  exact sup_inf_mem_range raw 0 450 (by decide)

/-- C6, as the code behaves: with `high < low`, a call to `algorithms::clamp`
does not fail; it returns normally, and the value returned is `low`. -/
theorem clampOutcome_inverted_bounds (val low high : T) (h : high < low) :
    software.algorithms.clampOutcome val low high = Except.ok low := by
  unfold software.algorithms.clampOutcome
  rw [software_clamp_eq, sup_eq_left.2 (inf_le_right.trans h.le)]

theorem clampOutcome_inverted_bounds_witness :
    (0 : Int) < 10 ∧ software.algorithms.clampOutcome (5 : Int) 10 0 = Except.ok 10 :=
  ⟨by decide, clampOutcome_inverted_bounds (5 : Int) 10 0 (by decide)⟩

/-- C6, counterexample: `clamp(5, 10, 0)` has its low bound above its high
bound, yet the call returns the ordinary value 10 and is no error. -/
theorem clampOutcome_inverted_bounds_not_error :
    (0 : Int) < 10 ∧
    software.algorithms.clampOutcome (5 : Int) 10 0 = Except.ok 10 ∧
    ¬ ∃ e : ConfigurationError,
      software.algorithms.clampOutcome (5 : Int) 10 0 = Except.error e := by
  refine ⟨by decide, rfl, ?_⟩
  rintro ⟨e, he⟩
  exact absurd he (by simp [software.algorithms.clampOutcome])

end Claims

section PID

open PIDController

/-- C7: the gains of the source are `KP = 35`, `KI = 1`, `KD = 0`, so over
exact arithmetic the derivative term vanishes for every error, previous error
and `dt ≠ 0`, and the sum of the three terms is `35 * error + integral`. -/
theorem source_gains_derivative_inert (error previousError dt integral : ℚ)
    (hdt : dt ≠ 0) :
    (software.KP = 35 ∧ software.KI = 1 ∧ software.KD = 0) ∧
    software.KD * ((error - previousError) / dt) = 0 ∧
    software.KP * error + software.KI * integral
        + software.KD * ((error - previousError) / dt) = 35 * error + integral := by
  have _ := hdt
  refine ⟨⟨rfl, rfl, rfl⟩, ?_, ?_⟩ <;>
    simp only [software.KP, software.KI, software.KD] <;> ring

theorem source_gains_derivative_inert_witness :
    (1 : ℚ) ≠ 0 ∧
    ((software.KP = 35 ∧ software.KI = 1 ∧ software.KD = 0) ∧
    software.KD * (((100 : ℚ) - 40) / 1) = 0 ∧
    software.KP * 100 + software.KI * 7
        + software.KD * (((100 : ℚ) - 40) / 1) = 35 * 100 + 7) :=
  ⟨by norm_num, source_gains_derivative_inert 100 40 1 7 (by norm_num)⟩

/-- C8: first-tick scenario with the gains of the source. For setpoint 400,
measured 300, `dt = 1`, integral and previous error starting at 0, the error is
100 and, with the integral at 100 after the update, the sum
`KP*error + KI*integral + KD*derivative` is exactly 3600 and the output is
`clamp(3600, outputMin, outputMax)` for every `outputMin ≤ outputMax`. The
controller computes just that whenever its integral after the update is 100,
which it is on every output range that contains 100. -/
theorem first_tick_output (outputMin outputMax : ℚ) (h : outputMin ≤ outputMax) :
    (software.KP * (400 - 300) + software.KI * 100
        + software.KD * derivative (400 - 300) 0 1 = 3600) ∧
    (software.algorithms.clamp
        (software.KP * (400 - 300) + software.KI * 100
          + software.KD * derivative (400 - 300) 0 1) outputMin outputMax =
      software.algorithms.clamp 3600 outputMin outputMax) ∧
    ((compute (sourceConfig outputMin outputMax) 400 300 1 reset).2.integral = 100 →
      unclamped (sourceConfig outputMin outputMax) 400 300 1 reset = 3600 ∧
      (compute (sourceConfig outputMin outputMax) 400 300 1 reset).1 =
        software.algorithms.clamp 3600 outputMin outputMax) ∧
    (outputMin ≤ 100 → 100 ≤ outputMax →
      (compute (sourceConfig outputMin outputMax) 400 300 1 reset).2.integral = 100) := by
  have _ := h
  have hsum : software.KP * (400 - 300) + software.KI * 100
      + software.KD * derivative (400 - 300) 0 1 = 3600 := by
    norm_num [software.KP, software.KI, software.KD]
  refine ⟨hsum, by rw [hsum], fun hint => ?_, fun hmin hmax => ?_⟩
  · have hu : unclamped (sourceConfig outputMin outputMax) 400 300 1 reset =
        software.KP * (400 - 300)
          + software.KI * (compute (sourceConfig outputMin outputMax) 400 300 1 reset).2.integral
          + software.KD * derivative (400 - 300) 0 1 := rfl
    have h3600 : unclamped (sourceConfig outputMin outputMax) 400 300 1 reset = 3600 := by
      rw [hu, hint]
      exact hsum
    refine ⟨h3600, ?_⟩
    rw [compute_output, h3600]
    rfl
  · rw [compute_integral]
    simp only [sourceConfig, reset, integrate, software_clamp_eq]
    have h100 : (0 : ℚ) + (400 - 300) * 1 = 100 := by norm_num
    rw [h100, inf_eq_left.2 hmax, sup_eq_right.2 hmin]

theorem first_tick_output_witness :
    (0 : ℚ) ≤ 255 ∧
    ((software.KP * (400 - 300) + software.KI * 100
        + software.KD * derivative (400 - 300) 0 1 = 3600) ∧
    (software.algorithms.clamp
        (software.KP * (400 - 300) + software.KI * 100
          + software.KD * derivative (400 - 300) 0 1) 0 255 =
      software.algorithms.clamp 3600 0 255) ∧
    ((compute (sourceConfig 0 255) 400 300 1 reset).2.integral = 100 →
      unclamped (sourceConfig 0 255) 400 300 1 reset = 3600 ∧
      (compute (sourceConfig 0 255) 400 300 1 reset).1 =
        software.algorithms.clamp 3600 0 255) ∧
    ((0 : ℚ) ≤ 100 → (100 : ℚ) ≤ 255 →
      (compute (sourceConfig 0 255) 400 300 1 reset).2.integral = 100)) :=
  ⟨by norm_num, first_tick_output 0 255 (by norm_num)⟩

/-- C9: anti-windup bound. With `outputMin ≤ 0 ≤ outputMax` and the integral
updated each tick as `clamp(integral + error*dt, outputMin, outputMax)`,
the integral started at 0 lies in `[outputMin, outputMax]` after every run of
ticks, whatever their errors and `dt` values; in particular after 10,000
ticks with `dt = 1` and `error = 100`. -/
theorem integral_anti_windup (outputMin outputMax : ℚ) (h : outputMin ≤ outputMax)
    (hmin : outputMin ≤ 0) (hmax : 0 ≤ outputMax) (ticks : List (ℚ × ℚ)) :
    (outputMin ≤ integralAfter outputMin outputMax ticks 0 ∧
      integralAfter outputMin outputMax ticks 0 ≤ outputMax) ∧
    (outputMin ≤ integralAfter outputMin outputMax (List.replicate 10000 (100, 1)) 0 ∧
      integralAfter outputMin outputMax (List.replicate 10000 (100, 1)) 0 ≤ outputMax) :=
  ⟨integralAfter_mem_range outputMin outputMax h ticks 0 hmin hmax,
    integralAfter_mem_range outputMin outputMax h _ 0 hmin hmax⟩

theorem integral_anti_windup_witness :
    (0 : ℚ) ≤ 255 ∧ (0 : ℚ) ≤ 0 ∧
    ((0 ≤ integralAfter 0 255 [(100, 1), (100, 1), (100, 1)] 0 ∧
      integralAfter 0 255 [(100, 1), (100, 1), (100, 1)] 0 ≤ 255) ∧
    (0 ≤ integralAfter 0 255 (List.replicate 10000 (100, 1)) 0 ∧
      integralAfter 0 255 (List.replicate 10000 (100, 1)) 0 ≤ 255)) :=
  ⟨by norm_num, le_refl 0,
    integral_anti_windup 0 255 (by norm_num) (le_refl 0) (by norm_num)
      [(100, 1), (100, 1), (100, 1)]⟩

/-- C10: zero-error steady state. With `Kd = 0` and `Ki = 0`, for every `Kp`,
every `dt > 0`, every PID state and every setpoint equal to the measured
value, on every output range that contains 0, the sum
`Kp*error + Ki*integral + Kd*derivative` is 0 and the PID output
`clamp(Kp*error + Ki*integral + Kd*derivative, outputMin, outputMax)` is 0. -/
theorem zero_error_output (kp outputMin outputMax setpoint measured dt : ℚ)
    (state : PIDState) (hdt : 0 < dt) (herr : setpoint = measured)
    (hmin : outputMin ≤ 0) (hmax : 0 ≤ outputMax) :
    unclamped (proportionalConfig kp outputMin outputMax) setpoint measured dt state = 0 ∧
    (compute (proportionalConfig kp outputMin outputMax) setpoint measured dt state).1 = 0 := by
  have _ := hdt
  subst herr
  have hsum :
      unclamped (proportionalConfig kp outputMin outputMax) setpoint setpoint dt state = 0 := by
    simp [unclamped, proportionalConfig]
  refine ⟨hsum, ?_⟩
  rw [compute_output, hsum]
  show software.algorithms.clamp 0 outputMin outputMax = 0
  rw [software_clamp_eq]
  exact sup_inf_of_mem 0 outputMin outputMax hmin hmax

theorem zero_error_output_witness :
    (0 : ℚ) < 1 ∧ (300 : ℚ) = 300 ∧ (0 : ℚ) ≤ 0 ∧ (0 : ℚ) ≤ 255 ∧
    (unclamped (proportionalConfig 35 0 255)
        300 300 1 { integral := 7, previousError := 3 } = 0 ∧
    (compute (proportionalConfig 35 0 255)
        300 300 1 { integral := 7, previousError := 3 }).1 = 0) :=
  ⟨by norm_num, rfl, le_refl 0, by norm_num,
    zero_error_output 35 0 255 300 300 1 { integral := 7, previousError := 3 }
      (by norm_num) rfl (le_refl 0) (by norm_num)⟩

end PID

/-! ## Lemmas on the control loop -/

namespace ControlLoop

theorem isInvalidTick_ne_reset (e : LoopEvent) (h : isInvalidTick e = true) :
    e ≠ LoopEvent.reset := by
  intro he
  subst he
  simp [isInvalidTick] at h

/-- In `Faulted`, an event other than `reset` keeps the loop in `Faulted`, and
keeps the heater off when it was off. -/
theorem step_faulted (cfg : LoopConfig) (loop : ControlLoop) (e : LoopEvent)
    (h : loop.state = LoopState.Faulted) (he : e ≠ LoopEvent.reset) :
    (step cfg loop e).state = LoopState.Faulted ∧
      (loop.heater = 0 → (step cfg loop e).heater = 0) := by
  cases e with
  | start => simp [step, h]
  | stop => simp [step, h]
  | reset => exact absurd rfl he
  | tick reading rawPosition dt => simp [step, h]

theorem run_faulted (cfg : LoopConfig) (events : List LoopEvent) :
    ∀ loop : ControlLoop, loop.state = LoopState.Faulted → LoopEvent.reset ∉ events →
      (run cfg events loop).state = LoopState.Faulted ∧
        (loop.heater = 0 → (run cfg events loop).heater = 0) := by
  induction events with
  | nil =>
    intro loop h _
    exact ⟨h, fun h0 => h0⟩
  | cons e events ih =>
    intro loop h hmem
    have he : e ≠ LoopEvent.reset := fun heq => hmem (heq ▸ List.mem_cons_self _ _)
    have hrest : LoopEvent.reset ∉ events := fun hin => hmem (List.mem_cons_of_mem _ hin)
    have hstep := step_faulted cfg loop e h he
    have hrun := ih (step cfg loop e) hstep.1 hrest
    exact ⟨hrun.1, fun h0 => hrun.2 (hstep.2 h0)⟩

/-- A tick with an invalid reading in `Running`: the heater is de-energized,
the count of consecutive invalid reads grows by one, and the loop is `Faulted`
exactly when the count reaches the threshold. -/
theorem step_invalid_running (cfg : LoopConfig) (loop : ControlLoop) (e : LoopEvent)
    (h : loop.state = LoopState.Running) (he : isInvalidTick e = true) :
    (step cfg loop e).heater = 0 ∧
    (step cfg loop e).invalidReads = loop.invalidReads + 1 ∧
    (step cfg loop e).state =
      (if cfg.faultThreshold ≤ loop.invalidReads + 1 then LoopState.Faulted
       else LoopState.Running) := by
  cases e with
  | start => simp [isInvalidTick] at he
  | stop => simp [isInvalidTick] at he
  | reset => simp [isInvalidTick] at he
  | tick reading rawPosition dt =>
    simp only [isInvalidTick, Bool.not_eq_true'] at he
    cases reading with
    | none => simp [step, h, runningTick]
    | some measured => simp [step, h, runningTick, he]

/-- A non-empty run of invalid ticks that brings the count of consecutive
invalid reads up to the threshold leaves a `Running` loop `Faulted`, heater
off. -/
theorem run_invalid_running (cfg : LoopConfig) (ticks : List LoopEvent) :
    ∀ loop : ControlLoop, loop.state = LoopState.Running →
      (∀ e ∈ ticks, isInvalidTick e = true) → ticks ≠ [] →
      cfg.faultThreshold ≤ loop.invalidReads + ticks.length →
      (run cfg ticks loop).state = LoopState.Faulted ∧ (run cfg ticks loop).heater = 0 := by
  induction ticks with
  | nil =>
    intro loop _ _ hne _
    exact absurd rfl hne
  | cons e ticks ih =>
    intro loop h hinv _ hlen
    have he : isInvalidTick e = true := hinv e (List.mem_cons_self _ _)
    have hrest : ∀ e' ∈ ticks, isInvalidTick e' = true :=
      fun e' hin => hinv e' (List.mem_cons_of_mem _ hin)
    obtain ⟨hheater, hcount, hstate⟩ := step_invalid_running cfg loop e h he
    show (run cfg ticks (step cfg loop e)).state = LoopState.Faulted ∧
      (run cfg ticks (step cfg loop e)).heater = 0
    by_cases hthr : cfg.faultThreshold ≤ loop.invalidReads + 1
    · rw [if_pos hthr] at hstate
      have hnoreset : LoopEvent.reset ∉ ticks :=
        fun hin => isInvalidTick_ne_reset _ (hrest _ hin) rfl
      have hrun := run_faulted cfg ticks (step cfg loop e) hstate hnoreset
      exact ⟨hrun.1, hrun.2 hheater⟩
    · rw [if_neg hthr] at hstate
      have hne : ticks ≠ [] := by
        intro hnil
        subst hnil
        exact hthr (by simpa using hlen)
      refine ih (step cfg loop e) hstate hrest hne ?_
      rw [hcount]
      simp only [List.length_cons] at hlen
      omega

end ControlLoop

/-! ## Claims on the control loop, the two header pairs and the pin assignment -/

section LoopClaims

open ControlLoop

/-- C11: fault escalation. With fault threshold `N = 3`, a `Running` control
loop that receives an invalid temperature reading on 5 consecutive ticks is
`Faulted` with heater output 0 after the third, the fourth and the fifth of
those ticks; a `Faulted` loop stays `Faulted` under every run of events that
holds no explicit `reset`, and `reset` returns it to `Idle`. -/
theorem fault_escalation (cfg : LoopConfig) (hN : cfg.faultThreshold = 3)
    (loop : ControlLoop) (hrun : loop.state = LoopState.Running)
    (ticks : List LoopEvent) (hlen : ticks.length = 5)
    (hinv : ∀ e ∈ ticks, isInvalidTick e = true) :
    (∀ k : Nat, 3 ≤ k → k ≤ 5 →
      (run cfg (ticks.take k) loop).state = LoopState.Faulted ∧
        (run cfg (ticks.take k) loop).heater = 0) ∧
    (∀ (faulted : ControlLoop) (events : List LoopEvent),
      faulted.state = LoopState.Faulted → LoopEvent.reset ∉ events →
        (run cfg events faulted).state = LoopState.Faulted) ∧
    (∀ faulted : ControlLoop, faulted.state = LoopState.Faulted →
      (step cfg faulted LoopEvent.reset).state = LoopState.Idle) := by
  refine ⟨fun k h3 h5 => ?_, fun faulted events hf hno => ?_, fun faulted hf => ?_⟩
  · have hk : (ticks.take k).length = k := by
      rw [List.length_take, hlen]
      omega
    refine run_invalid_running cfg (ticks.take k) loop hrun
      (fun e he => hinv e (List.mem_of_mem_take he)) ?_ ?_
    · intro hnil
      rw [hnil] at hk
      simp only [List.length_nil] at hk
      omega
    · rw [hk, hN]
      omega
  · exact (run_faulted cfg events faulted hf hno).1
  · simp [step, hf]

theorem fault_escalation_witness :
    scenarioConfig.faultThreshold = 3 ∧ scenarioLoop.state = LoopState.Running ∧
    scenarioTicks.length = 5 ∧
    ((∀ k : Nat, 3 ≤ k → k ≤ 5 →
      (run scenarioConfig (scenarioTicks.take k) scenarioLoop).state = LoopState.Faulted ∧
        (run scenarioConfig (scenarioTicks.take k) scenarioLoop).heater = 0) ∧
    (∀ (faulted : ControlLoop) (events : List LoopEvent),
      faulted.state = LoopState.Faulted → LoopEvent.reset ∉ events →
        (run scenarioConfig events faulted).state = LoopState.Faulted) ∧
    (∀ faulted : ControlLoop, faulted.state = LoopState.Faulted →
      (step scenarioConfig faulted LoopEvent.reset).state = LoopState.Idle)) :=
  ⟨rfl, rfl, rfl,
    fault_escalation scenarioConfig rfl scenarioLoop rfl scenarioTicks rfl
      (by
        intro e he
        simp only [scenarioTicks, List.mem_cons, List.mem_singleton, List.not_mem_nil,
          or_false] at he
        rcases he with rfl | rfl | rfl | rfl | rfl <;>
          norm_num [isInvalidTick, readingValid])⟩

end LoopClaims

section HeaderClaims

/-- C12: the firmware and software variants of the algorithms header agree:
for every type, every relation `<` on it and all arguments, firmware `min`,
`max` and `clamp` return the same value as software `min`, `max` and `clamp`. -/
theorem firmware_eq_software {T : Type*} [LT T] [DecidableRel (LT.lt : T → T → Prop)]
    (a b val low high : T) :
    firmware.algorithms.min a b = software.algorithms.min a b ∧
    firmware.algorithms.max a b = software.algorithms.max a b ∧
    firmware.algorithms.clamp val low high = software.algorithms.clamp val low high :=
  ⟨rfl, rfl, rfl⟩

/-- C13: every configuration constant defined in both headers has the same
value in both: `MAX31865_RREF = 430`, `MAX31865_RNOMINAL = 100`,
`dcMotor = 16`, `potPin = 17`, `rotaryAPin = 4`, `rotaryBPin = 0`,
`ssrPin = 5`. -/
theorem header_constants_agree :
    (firmware.MAX31865_RREF = 430 ∧ software.MAX31865_RREF = 430) ∧
    (firmware.MAX31865_RNOMINAL = 100 ∧ software.MAX31865_RNOMINAL = 100) ∧
    (firmware.dcMotor = 16 ∧ software.dcMotor = 16) ∧
    (firmware.potPin = 17 ∧ software.potPin = 17) ∧
    (firmware.rotaryAPin = 4 ∧ software.rotaryAPin = 4) ∧
    (firmware.rotaryBPin = 0 ∧ software.rotaryBPin = 0) ∧
    (firmware.ssrPin = 5 ∧ software.ssrPin = 5) :=
  ⟨⟨rfl, rfl⟩, ⟨rfl, rfl⟩, ⟨rfl, rfl⟩, ⟨rfl, rfl⟩, ⟨rfl, rfl⟩, ⟨rfl, rfl⟩, ⟨rfl, rfl⟩⟩

/-- C17: in each of the two headers the five pin constants `dcMotor`,
`potPin`, `rotaryAPin`, `rotaryBPin` and `ssrPin` are pairwise distinct and
non-negative. -/
theorem pins_distinct_nonneg :
    (List.Pairwise (fun p q : Int => p ≠ q)
        [software.dcMotor, software.potPin, software.rotaryAPin, software.rotaryBPin,
          software.ssrPin] ∧
      ∀ p ∈ [software.dcMotor, software.potPin, software.rotaryAPin, software.rotaryBPin,
          software.ssrPin], (0 : Int) ≤ p) ∧
    (List.Pairwise (fun p q : Int => p ≠ q)
        [firmware.dcMotor, firmware.potPin, firmware.rotaryAPin, firmware.rotaryBPin,
          firmware.ssrPin] ∧
      ∀ p ∈ [firmware.dcMotor, firmware.potPin, firmware.rotaryAPin, firmware.rotaryBPin,
          firmware.ssrPin], (0 : Int) ≤ p) := by
  decide

end HeaderClaims

section OrderClaims

variable {T : Type*} [LinearOrder T]

/-- C14: when the precondition is violated, `clamp` collapses to the low
bound: for `high < low`, `algorithms::clamp(val, low, high) = low` whatever
`val` is (software and firmware variants alike), so it differs from the
three-way reference exactly when `low ≤ val`. -/
theorem clamp_inverted_bounds_eq_low (val low high : T) (h : high < low) :
    software.algorithms.clamp val low high = low ∧
    firmware.algorithms.clamp val low high = low ∧
    (software.algorithms.clamp val low high ≠ clampSpec val low high ↔ low ≤ val) := by
  have hsoft : software.algorithms.clamp val low high = low := by
    rw [software_clamp_eq, sup_eq_left.2 (inf_le_right.trans h.le)]
  have hfirm : firmware.algorithms.clamp val low high = low := by
    rw [firmware_clamp_eq, sup_eq_left.2 (inf_le_right.trans h.le)]
  refine ⟨hsoft, hfirm, ?_⟩
  rw [hsoft]
  unfold clampSpec
  constructor
  · intro hne
    by_contra hlt
    exact hne (by rw [if_pos (not_le.1 hlt)])
  · intro hle
    rw [if_neg (not_lt.2 hle), if_pos (h.trans_le hle)]
    exact h.ne'

theorem clamp_inverted_bounds_eq_low_witness :
    (0 : Int) < 10 ∧
    (software.algorithms.clamp (25 : Int) 10 0 = 10 ∧
    firmware.algorithms.clamp (25 : Int) 10 0 = 10 ∧
    (software.algorithms.clamp (25 : Int) 10 0 ≠ clampSpec (25 : Int) 10 0 ↔
      (10 : Int) ≤ 25)) :=
  ⟨by decide, clamp_inverted_bounds_eq_low (25 : Int) 10 0 (by decide)⟩

/-- C15: `algorithms::clamp` is monotone in its value argument: for every
`low` and `high`, ordered either way, and every `v1 ≤ v2`,
`clamp(v1, low, high) ≤ clamp(v2, low, high)`. -/
theorem clamp_monotone (low high v1 v2 : T) (h : v1 ≤ v2) :
    software.algorithms.clamp v1 low high ≤ software.algorithms.clamp v2 low high := by
  rw [software_clamp_eq, software_clamp_eq]
  exact sup_le_sup_left (inf_le_inf_right high h) low

theorem clamp_monotone_witness :
    (-3 : Int) ≤ 200 ∧
    software.algorithms.clamp (-3 : Int) 0 450 ≤ software.algorithms.clamp (200 : Int) 0 450 :=
  ⟨by decide, clamp_monotone (0 : Int) 450 (-3) 200 (by decide)⟩

end OrderClaims

section RelationClaims

/-- C16: for an arbitrary relation `<`, no order axiom assumed, `min`, `max`
and `clamp` only select among their arguments: `min(a, b)` and `max(a, b)` are
each `a` or `b`, both return the first argument `a` when neither `a < b` nor
`b < a` holds, and `clamp(val, low, high)` is one of `val`, `low`, `high`
(software and firmware variants alike). -/
theorem min_max_clamp_select {T : Type*} [LT T] [DecidableRel (LT.lt : T → T → Prop)]
    (a b val low high : T) :
    ((software.algorithms.min a b = a ∨ software.algorithms.min a b = b) ∧
      (software.algorithms.max a b = a ∨ software.algorithms.max a b = b) ∧
      (¬ a < b → ¬ b < a →
        software.algorithms.min a b = a ∧ software.algorithms.max a b = a) ∧
      (software.algorithms.clamp val low high = val ∨
        software.algorithms.clamp val low high = low ∨
        software.algorithms.clamp val low high = high)) ∧
    ((firmware.algorithms.min a b = a ∨ firmware.algorithms.min a b = b) ∧
      (firmware.algorithms.max a b = a ∨ firmware.algorithms.max a b = b) ∧
      (¬ a < b → ¬ b < a →
        firmware.algorithms.min a b = a ∧ firmware.algorithms.max a b = a) ∧
      (firmware.algorithms.clamp val low high = val ∨
        firmware.algorithms.clamp val low high = low ∨
        firmware.algorithms.clamp val low high = high)) := by
  refine ⟨⟨?_, ?_, ?_, ?_⟩, ⟨?_, ?_, ?_, ?_⟩⟩
  · unfold software.algorithms.min
    split_ifs <;> simp
  · unfold software.algorithms.max
    split_ifs <;> simp
  · intro hab hba
    unfold software.algorithms.min software.algorithms.max
    rw [if_neg hba, if_neg hab]
    exact ⟨rfl, rfl⟩
  · unfold software.algorithms.clamp software.algorithms.max software.algorithms.min
    split_ifs <;> simp
  · unfold firmware.algorithms.min
    split_ifs <;> simp
  · unfold firmware.algorithms.max
    split_ifs <;> simp
  · intro hab hba
    unfold firmware.algorithms.min firmware.algorithms.max
    rw [if_neg hba, if_neg hab]
    exact ⟨rfl, rfl⟩
  · unfold firmware.algorithms.clamp firmware.algorithms.max firmware.algorithms.min
    split_ifs <;> simp

/-- The sets `{1}` and `{2}` are incomparable under strict inclusion, and both
`min` and `max` return the first of them. -/
theorem min_max_clamp_select_witness :
    software.algorithms.min ({1} : Finset ℕ) {2} = {1} ∧
    software.algorithms.max ({1} : Finset ℕ) {2} = {1} :=
  (min_max_clamp_select ({1} : Finset ℕ) {2} {3} {1} {2}).1.2.2.1 (by decide) (by decide)

end RelationClaims

